import Mathlib

/-!
Verification of the 7ma-web vehicle-reservation orchestrator.

This file gives a shallow embedding of the core components of the
repository and proves the specified properties about them:

* `ReservationTask.run` (src/app/background.py) — the per-vehicle
  reserve → hold → return loop, modelled as a fuel-indexed interpreter
  `runCycles` over an oracle environment `TaskEnv` that fixes the outcome
  of every network call and the time at which `stop()` is called.
  Time is counted in the same unit as `asyncio.sleep` seconds.
* the task registry `task_manager` and `create_reservation_task`
  (src/app/routers/tasks.py);
* `PeriodicTaskManager._execute_task` (src/app/scheduler.py);
* `SevenMateSocketClient._create_packet` / `_calculate_auth_code`
  (src/app/sdk/seven_ma_sdk.py);
* `SevenPaceAsyncClient.set_token`, `check_authority` and
  `get_unpaid_order` (src/app/sdk/seven_ma_sdk.py).
-/

namespace SevenMa

/-- The `status` field of a `ReservationTask` (strings "pending",
"running", "completed", "stopped", "failed" in background.py). -/
inductive TaskStatus where
  | pending
  | running
  | completed
  | stopped
  | failed
deriving DecidableEq

/-- Outcome of one `client.order_car` call: normal return with the
response message, an `APIError` with its message, or any other
exception with its message. -/
inductive OrderResult where
  | ok (msg : String)
  | apiErr (msg : String)
  | otherErr (msg : String)
deriving DecidableEq

/-- Outcome of one `client.back_car` call. -/
inductive BackResult where
  | ok
  | apiErr (msg : String)
  | otherErr (msg : String)
deriving DecidableEq

/-- Oracle environment for a run of `ReservationTask.run`:
`orderResult k` is the outcome of the reserve call in cycle `k`
(`k` = the value of `current_loop` during that cycle, starting at 1),
`backResult k i` the outcome of return attempt `i` (0-based) in cycle
`k`, and `stopTime` the time at which `stop()` sets the stop event
(`none` when `stop()` is never called). -/
structure TaskEnv where
  orderResult : Nat → OrderResult
  backResult : Nat → Nat → BackResult
  stopTime : Option Nat

/-- `self._stop_event.is_set()` at time `t`: true iff `stop()` was
called at some time `≤ t`. -/
def TaskEnv.stopSet (env : TaskEnv) (t : Nat) : Bool :=
  match env.stopTime with
  | none => false
  | some s => decide (s ≤ t)

/-- The hold loop `for i in range(wait_seconds, 0, -1)` in
`ReservationTask.run` (background.py lines 42-51), started at time `t`
with `n` seconds left.  Each iteration first checks the stop event and
breaks if set, possibly updates `self.message` (once per minute), then
sleeps one second.  Returns the time at which the loop exits and the
list of messages written, in order.  `k` is `current_loop`. -/
def holdWait (env : TaskEnv) (k : Nat) : Nat → Nat → Nat × List String
  | t, 0 => (t, [])
  | t, n+1 =>
    if env.stopSet t then (t, [])
    else
      let msgs := if (n+1) % 60 == 0 || n+1 == 1440
        then [s!"第 {k} 轮: 等待 {(n+60)/60} 分钟后主动还车..."]
        else []
      let r := holdWait env k (t+1) n
      (r.1, msgs ++ r.2)

/-- How the return-retry loop (background.py lines 57-73) ended:
a successful `back_car` (→ `return_successful = True`), loop exit with
`return_successful = False` (stop observed or all attempts failed), or
an exception other than `APIError` escaping to the outer handler. -/
inductive RetryKind where
  | success
  | failedOut
  | exn (msg : String)
deriving DecidableEq

/-- Result of the return-retry loop: how it ended, the time at exit,
and the messages written during it. -/
structure RetryRes where
  kind : RetryKind
  time : Nat
  trace : List String
deriving DecidableEq

/-- The return-retry loop `for i in range(max_retries)` of
`ReservationTask.run` (background.py lines 57-73).  `k` is
`current_loop`, `maxRetries` the bound shown in messages, `fuel` the
attempts remaining, `i` the 0-based attempt index and `t` the time. -/
def returnRetries (env : TaskEnv) (k maxRetries : Nat) : Nat → Nat → Nat → RetryRes
  | 0, _, t => ⟨.failedOut, t, []⟩
  | fuel+1, i, t =>
    if env.stopSet t then ⟨.failedOut, t, []⟩
    else
      let attemptMsg := s!"第 {k} 轮: 正在主动还车 (尝试 {i+1}/{maxRetries})..."
      match env.backResult k i with
      | .ok =>
          ⟨.success, t + 5, [attemptMsg, s!"第 {k} 轮: 已主动还车，准备下一轮。"]⟩
      | .apiErr e =>
          let r := returnRetries env k maxRetries fuel (i+1) (t+15)
          ⟨r.kind, r.time, attemptMsg :: s!"第 {k} 轮: 还车失败({e})。15秒后重试..." :: r.trace⟩
      | .otherErr e => ⟨.exn e, t, [attemptMsg]⟩

/-- Observable result of `ReservationTask.run`: final `status`, final
`current_loop`, the time at which the coroutine finished, the number
of `order_car` calls made, and every value assigned to `self.message`,
in order. -/
structure RunResult where
  status : TaskStatus
  currentLoop : Nat
  time : Nat
  orderCalls : Nat
  trace : List String
deriving DecidableEq

/-- Lines 91-98 of background.py, reached when the `while` loop exits:
`current_loop >= max_loops` yields "completed", anything else
"stopped".  The `finally` block never changes a "completed"/"stopped"
status, so it is not modelled further. -/
def finishRun (maxLoops k t oc : Nat) (tr : List String) : RunResult :=
  if maxLoops ≤ k then ⟨.completed, k, t, oc, tr ++ ["所有循环已完成"]⟩
  else ⟨.stopped, k, t, oc, tr ++ ["任务已停止"]⟩

/-- The `while` loop of `ReservationTask.run` (background.py lines
29-89), as a fuel-indexed interpreter.  `cl` is `current_loop`, `t`
the current time, `oc` the `order_car` calls made so far and `tr` the
message trace so far.  Every iteration increments `cl`, so fuel
`maxLoops - cl` is always sufficient. -/
def runCycles (env : TaskEnv) (maxLoops : Nat) :
    Nat → Nat → Nat → Nat → List String → RunResult
  | 0, cl, t, oc, tr => finishRun maxLoops cl t oc tr
  | fuel+1, cl, t, oc, tr =>
    if cl < maxLoops ∧ env.stopSet t = false then
      let k := cl + 1
      let tr0 := tr ++ [s!"第 {k}/{maxLoops} 轮预约开始"]
      match env.orderResult k with
      | .apiErr e =>
          runCycles env maxLoops fuel k (t + 60) (oc + 1)
            (tr0 ++ [s!"第 {k} 轮预约出错: {e}"])
      | .otherErr e =>
          finishRun maxLoops k t (oc + 1) (tr0 ++ [s!"第 {k} 轮发生未知错误: {e}"])
      | .ok m =>
          let tr1 := tr0 ++ [s!"第 {k} 轮: 预约成功 - {m}"]
          let hw := holdWait env k t 1440
          if env.stopSet hw.1 then
            finishRun maxLoops k hw.1 (oc + 1) (tr1 ++ hw.2)
          else
            let rr := returnRetries env k 12 12 0 hw.1
            match rr.kind with
            | .success =>
                runCycles env maxLoops fuel k rr.time (oc + 1) (tr1 ++ hw.2 ++ rr.trace)
            | .failedOut =>
                finishRun maxLoops k rr.time (oc + 1)
                  (tr1 ++ hw.2 ++ rr.trace ++ ["多次还车失败，任务已终止以避免风险。"])
            | .exn e =>
                finishRun maxLoops k rr.time (oc + 1)
                  (tr1 ++ hw.2 ++ rr.trace ++ [s!"第 {k} 轮发生未知错误: {e}"])
    else finishRun maxLoops cl t oc tr

/-- A whole run of `ReservationTask.run` with iteration cap
`maxLoops`, starting at time 0 from `current_loop = 0`. -/
def runTask (env : TaskEnv) (maxLoops : Nat) : RunResult :=
  runCycles env maxLoops maxLoops 0 0 0 ["任务已创建，等待开始", "任务正在运行"]

/-! ### Basic lemmas about the interpreter -/

theorem stopSet_none {env : TaskEnv} (hs : env.stopTime = none) (t : Nat) :
    env.stopSet t = false := by
  simp [TaskEnv.stopSet, hs]

theorem stopSet_some {env : TaskEnv} {s : Nat} (hs : env.stopTime = some s) (t : Nat) :
    env.stopSet t = decide (s ≤ t) := by
  simp [TaskEnv.stopSet, hs]

/-- With no stop request, the hold loop runs its full length. -/
theorem holdWait_fst_noStop {env : TaskEnv} (hs : env.stopTime = none) (k : Nat) :
    ∀ n t, (holdWait env k t n).1 = t + n := by
  intro n
  induction n with
  | zero => intro t; simp [holdWait]
  | succ n ih =>
    intro t
    simp only [holdWait, stopSet_none hs, Bool.false_eq_true, if_false]
    rw [ih (t+1)]
    omega

/-- With a stop requested at time `s` inside the hold window, the hold
loop exits exactly at time `s`. -/
theorem holdWait_fst_stop {env : TaskEnv} {s : Nat} (hs : env.stopTime = some s) (k : Nat) :
    ∀ n t, t ≤ s → s < t + n → (holdWait env k t n).1 = s := by
  intro n
  induction n with
  | zero => intro t h1 h2; omega
  | succ n ih =>
    intro t h1 h2
    by_cases hts : s ≤ t
    · have : t = s := by omega
      subst this
      simp [holdWait, stopSet_some hs]
    · simp only [holdWait, stopSet_some hs, decide_eq_true_eq, if_neg hts]
      exact ih (t+1) (by omega) (by omega)

/-- With no stop request and a first return attempt that succeeds, the
retry loop ends successfully after the 5-second settle delay. -/
theorem returnRetries_firstOk {env : TaskEnv} (hs : env.stopTime = none) (k t : Nat)
    (hb : env.backResult k 0 = BackResult.ok) :
    (returnRetries env k 12 12 0 t).kind = RetryKind.success ∧
    (returnRetries env k 12 12 0 t).time = t + 5 := by
  simp [returnRetries, stopSet_none hs, hb]

/-- With no stop request and every return attempt failing with an
`APIError`, the retry loop exits with `return_successful = False`
after 15 seconds per remaining attempt. -/
theorem returnRetries_allFail {env : TaskEnv} {k : Nat} (hs : env.stopTime = none)
    (hb : ∀ i, ∃ e, env.backResult k i = BackResult.apiErr e) :
    ∀ fuel i t, (returnRetries env k 12 fuel i t).kind = RetryKind.failedOut ∧
      (returnRetries env k 12 fuel i t).time = t + 15 * fuel := by
  intro fuel
  induction fuel with
  | zero => intro i t; simp [returnRetries]
  | succ fuel ih =>
    intro i t
    obtain ⟨e, he⟩ := hb i
    simp only [returnRetries, stopSet_none hs, Bool.false_eq_true, if_false, he]
    refine ⟨(ih (i+1) (t+15)).1, ?_⟩
    rw [(ih (i+1) (t+15)).2]
    omega

/-- With no stop request, every reserve succeeding and every first
return attempt succeeding, each iteration of the while loop advances
`current_loop` by one and eventually exits with "completed". -/
theorem runCycles_allOk {env : TaskEnv} {N : Nat}
    (ho : ∀ k, ∃ m, env.orderResult k = OrderResult.ok m)
    (hb : ∀ k i, env.backResult k i = BackResult.ok)
    (hs : env.stopTime = none) :
    ∀ fuel cl t oc tr, cl + fuel = N →
      (runCycles env N fuel cl t oc tr).status = TaskStatus.completed ∧
      (runCycles env N fuel cl t oc tr).currentLoop = N ∧
      (runCycles env N fuel cl t oc tr).orderCalls = oc + fuel := by
  intro fuel
  induction fuel with
  | zero =>
    intro cl t oc tr h
    have hNc : N ≤ cl := by omega
    simp [runCycles, finishRun, if_pos hNc]
    omega
  | succ fuel ih =>
    intro cl t oc tr h
    have hcl : cl < N := by omega
    obtain ⟨m, hm⟩ := ho (cl+1)
    have hhw := holdWait_fst_noStop hs (cl+1) 1440 t
    have hrr := returnRetries_firstOk hs (cl+1) (t+1440) (hb (cl+1) 0)
    simp only [runCycles, stopSet_none hs, hm, hhw, hrr.1, hrr.2,
      Bool.false_eq_true, if_false, and_true, eq_self_iff_true]
    rw [if_pos hcl]
    refine ⟨(ih (cl+1) (t+1440+5) (oc+1) _ (by omega)).1,
      (ih (cl+1) (t+1440+5) (oc+1) _ (by omega)).2.1, ?_⟩
    rw [(ih (cl+1) (t+1440+5) (oc+1) _ (by omega)).2.2]
    omega

/-- The trace the loop leaves behind extends the trace it starts from:
`self.message` assignments are only ever appended to the history. -/
theorem finishRun_trace_extends (N k t oc : Nat) (tr : List String) :
    tr <+: (finishRun N k t oc tr).trace := by
  unfold finishRun
  by_cases h : N ≤ k
  · rw [if_pos h]; exact ⟨_, rfl⟩
  · rw [if_neg h]; exact ⟨_, rfl⟩

/-- Trace monotonicity for the whole interpreter. -/
theorem runCycles_trace_mono (env : TaskEnv) (N : Nat) :
    ∀ fuel cl t oc tr, tr <+: (runCycles env N fuel cl t oc tr).trace := by
  intro fuel
  induction fuel with
  | zero => intro cl t oc tr; exact finishRun_trace_extends N cl t oc tr
  | succ fuel ih =>
    intro cl t oc tr
    simp only [runCycles]
    by_cases h : cl < N ∧ env.stopSet t = false
    · rw [if_pos h]
      split
      all_goals try split
      all_goals try split
      all_goals
        first
        | (refine List.IsPrefix.trans ?_ (ih _ _ _ _)
           simp only [List.append_assoc]
           exact ⟨_, rfl⟩)
        | (refine List.IsPrefix.trans ?_ (finishRun_trace_extends _ _ _ _ _)
           simp only [List.append_assoc]
           exact ⟨_, rfl⟩)
    · rw [if_neg h]
      exact finishRun_trace_extends N cl t oc tr

/-- With no stop request and every reserve failing with an `APIError`,
every cycle takes the 60-second backoff, consumes an iteration slot,
and the loop finally exits with "completed" at the cap. -/
theorem runCycles_allApiErr {env : TaskEnv} {N : Nat}
    (ho : ∀ k, ∃ e, env.orderResult k = OrderResult.apiErr e)
    (hs : env.stopTime = none) :
    ∀ fuel cl t oc tr, cl + fuel = N →
      (runCycles env N fuel cl t oc tr).status = TaskStatus.completed ∧
      (runCycles env N fuel cl t oc tr).currentLoop = N ∧
      (runCycles env N fuel cl t oc tr).orderCalls = oc + fuel ∧
      (runCycles env N fuel cl t oc tr).time = t + 60 * fuel := by
  intro fuel
  induction fuel with
  | zero =>
    intro cl t oc tr h
    have hNc : N ≤ cl := by omega
    simp [runCycles, finishRun, if_pos hNc]
    omega
  | succ fuel ih =>
    intro cl t oc tr h
    have hcl : cl < N := by omega
    obtain ⟨e, he⟩ := ho (cl+1)
    simp only [runCycles, stopSet_none hs, he, and_true, eq_self_iff_true]
    rw [if_pos hcl]
    refine ⟨(ih (cl+1) (t+60) (oc+1) _ (by omega)).1,
      (ih (cl+1) (t+60) (oc+1) _ (by omega)).2.1, ?_, ?_⟩
    · rw [(ih (cl+1) (t+60) (oc+1) _ (by omega)).2.2.1]; omega
    · rw [(ih (cl+1) (t+60) (oc+1) _ (by omega)).2.2.2]; omega

/-! ### Claim theorems about the reservation loop -/

/-- C2: for every cap `N ≥ 1`, a run in which every reserve and every
proactive-return call succeeds and `stop()` is never called terminates
with status "completed" after exactly `N` cycles, with `current_loop`
equal to `N` (and exactly `N` reserve calls made). -/
theorem C2_always_success_loop_completes (env : TaskEnv) (N : Nat) (om : Nat → String)
    (hN : 1 ≤ N) (ho : ∀ k, env.orderResult k = OrderResult.ok (om k))
    (hb : ∀ k i, env.backResult k i = BackResult.ok)
    (hs : env.stopTime = none) :
    (runTask env N).status = TaskStatus.completed ∧
    (runTask env N).currentLoop = N ∧
    (runTask env N).orderCalls = N := by
  have h := runCycles_allOk (fun k => ⟨om k, ho k⟩) hb hs
    N 0 0 0 ["任务已创建，等待开始", "任务正在运行"] (Nat.zero_add N)
  exact ⟨h.1, h.2.1, by rw [runTask, h.2.2]; omega⟩

/-- An environment in which every call succeeds and `stop()` is never
called. -/
def allOkEnv : TaskEnv := ⟨fun _ => .ok "ok", fun _ _ => .ok, none⟩

/-- Witness for C2 at cap 2 in an always-succeeding environment. -/
theorem C2_witness : 1 ≤ 2 ∧
    ((runTask allOkEnv 2).status = TaskStatus.completed ∧
     (runTask allOkEnv 2).currentLoop = 2 ∧
     (runTask allOkEnv 2).orderCalls = 2) :=
  ⟨by decide, C2_always_success_loop_completes allOkEnv 2 (fun _ => "ok") (by decide)
    (fun _ => rfl) (fun _ _ => rfl) rfl⟩

/-- C5: a reserve step failing with an `APIError` records the error
message, pauses 60 seconds, and retries the outer cycle, and the
failed cycle consumes an iteration slot.  Shown on a run in which
every reserve fails: the loop still reaches the cap after exactly `N`
cycles ("completed", `current_loop = N`, `N` reserve calls), taking
exactly 60 seconds per failed cycle, with the cycle-1 error message
recorded in the message history. -/
theorem C5_reserve_apiError_backoff_consumes_slot (env : TaskEnv) (N : Nat)
    (emsg : Nat → String) (hN : 1 ≤ N)
    (ho : ∀ k, env.orderResult k = OrderResult.apiErr (emsg k))
    (hs : env.stopTime = none) :
    (runTask env N).status = TaskStatus.completed ∧
    (runTask env N).currentLoop = N ∧
    (runTask env N).orderCalls = N ∧
    (runTask env N).time = 60 * N ∧
    s!"第 1 轮预约出错: {emsg 1}" ∈ (runTask env N).trace := by
  have h := runCycles_allApiErr (fun k => ⟨emsg k, ho k⟩) hs
    N 0 0 0 ["任务已创建，等待开始", "任务正在运行"] (Nat.zero_add N)
  refine ⟨h.1, h.2.1, by rw [runTask, h.2.2.1]; omega, by rw [runTask, h.2.2.2]; omega, ?_⟩
  obtain ⟨M, rfl⟩ : ∃ M, N = M + 1 := ⟨N - 1, by omega⟩
  rw [runTask]
  simp only [runCycles, stopSet_none hs, ho 1, and_true, eq_self_iff_true, Nat.zero_add]
  rw [if_pos (by omega : 0 < M + 1)]
  refine List.IsPrefix.subset (runCycles_trace_mono env (M+1) M 1 60 1 _) ?_
  simp only [List.mem_append, List.mem_singleton, List.mem_cons, List.not_mem_nil, or_false]
  have h1 : (toString "第 1 轮预约出错: " : String)
      = toString "第 " ++ toString (1:Nat) ++ toString " 轮预约出错: " := by decide
  rw [h1]
  exact Or.inr rfl

/-- An environment in which every reserve fails with an `APIError` and
`stop()` is never called. -/
def allOrderFailEnv : TaskEnv := ⟨fun _ => .apiErr "车辆已被预约", fun _ _ => .ok, none⟩

/-- Witness for C5 at cap 2 in an environment where every reserve
fails with an application error. -/
theorem C5_witness : 1 ≤ 2 ∧
    ((runTask allOrderFailEnv 2).status = TaskStatus.completed ∧
     (runTask allOrderFailEnv 2).currentLoop = 2 ∧
     (runTask allOrderFailEnv 2).orderCalls = 2 ∧
     (runTask allOrderFailEnv 2).time = 60 * 2 ∧
     s!"第 1 轮预约出错: 车辆已被预约" ∈ (runTask allOrderFailEnv 2).trace) :=
  ⟨by decide, C5_reserve_apiError_backoff_consumes_slot allOrderFailEnv 2
    (fun _ => "车辆已被预约") (by decide) (fun _ => rfl) rfl⟩

/-- An environment where every reserve succeeds, every proactive
return fails with an `APIError`, and `stop()` is never called. -/
def allBackFailEnv : TaskEnv := ⟨fun _ => .ok "ok", fun _ _ => .apiErr "fail", none⟩

/-- C1 counterexample: with cap 2, reserve succeeding and all 12
proactive-return attempts of cycle 1 failing with an `APIError`, the
loop's final status is "stopped" — not "failed" as the claim states —
because `run` breaks out of the `while` loop and then classifies the
exit solely by `current_loop >= max_loops` (background.py lines
75-78 and 91-98).  No further reserve is attempted. -/
theorem C1_counterexample :
    (runTask allBackFailEnv 2).status = TaskStatus.stopped ∧
    (runTask allBackFailEnv 2).status ≠ TaskStatus.failed ∧
    (runTask allBackFailEnv 2).orderCalls = 1 := by
  set_option maxRecDepth 10000 in decide

/-- C1 (amended): if in cycle 1 the reserve succeeds and all 12
proactive-return attempts fail with an application-level error, the
loop records the hard-stop message and makes no further reserve
attempt, but it terminates in the Stopped state (it would be
Completed if the failing cycle were the cap-th one), not Failed:
after the `break` the exit is classified only by
`current_loop >= max_loops`. -/
theorem C1_amended_return_failures_hard_stop (env : TaskEnv) (N : Nat) (m : String)
    (eb : Nat → String) (hN : 2 ≤ N)
    (ho : env.orderResult 1 = OrderResult.ok m)
    (hb : ∀ i, env.backResult 1 i = BackResult.apiErr (eb i))
    (hs : env.stopTime = none) :
    (runTask env N).status = TaskStatus.stopped ∧
    (runTask env N).currentLoop = 1 ∧
    (runTask env N).orderCalls = 1 ∧
    (runTask env N).time = 1620 ∧
    "多次还车失败，任务已终止以避免风险。" ∈ (runTask env N).trace := by
  obtain ⟨M, rfl⟩ : ∃ M, N = M + 1 := ⟨N - 1, by omega⟩
  have hhw := holdWait_fst_noStop hs 1 1440 0
  have hrr := returnRetries_allFail hs (fun i => ⟨eb i, hb i⟩) 12 0 1440
  rw [runTask]
  simp only [runCycles, stopSet_none hs, ho, and_true, eq_self_iff_true, Nat.zero_add,
    hhw, hrr.1, hrr.2, Bool.false_eq_true, if_false]
  rw [if_pos (by omega : 0 < M + 1)]
  unfold finishRun
  rw [if_neg (by omega : ¬ (M + 1 ≤ 1))]
  refine ⟨rfl, rfl, rfl, by norm_num, ?_⟩
  simp

/-- Witness for the amended C1 at cap 2. -/
theorem C1_witness : 2 ≤ 2 ∧
    ((runTask allBackFailEnv 2).status = TaskStatus.stopped ∧
     (runTask allBackFailEnv 2).currentLoop = 1 ∧
     (runTask allBackFailEnv 2).orderCalls = 1 ∧
     (runTask allBackFailEnv 2).time = 1620 ∧
     "多次还车失败，任务已终止以避免风险。" ∈ (runTask allBackFailEnv 2).trace) :=
  ⟨by decide, C1_amended_return_failures_hard_stop allBackFailEnv 2 "ok" (fun _ => "fail")
    (by decide) rfl (fun _ => rfl) rfl⟩

/-- An environment where cycle 1's reserve fails with an `APIError`
and `stop()` is called at time 1, one second into the 60-second
backoff sleep. -/
def stopDuringBackoffEnv : TaskEnv :=
  ⟨fun _ => .apiErr "车辆已被预约", fun _ _ => .ok, some 1⟩

/-- C3 counterexample: `stop()` called at time 1, during the
60-second backoff after a failed reserve (`await asyncio.sleep(60)`,
background.py line 84), is only observed at the top of the next cycle
at time 60 — not within one time unit (which would require
termination by time 2).  The single `sleep(60)` contains no
cancellation check. -/
theorem C3_counterexample :
    (runTask stopDuringBackoffEnv 2).status = TaskStatus.stopped ∧
    (runTask stopDuringBackoffEnv 2).time = 60 ∧
    ¬ ((runTask stopDuringBackoffEnv 2).time ≤ 2) := by
  decide

/-- C3 (amended): `stop()` called at time `s` during the hold window
(which checks the stop event once per second) is observed at time `s`,
i.e. within one polling interval, and the loop reaches Stopped; but
during the 60-second post-reserve-failure backoff and the 15-second
waits between return retries the flag is only re-checked after the
full sleep, so observation there can be delayed by up to the full
wait. -/
theorem C3_amended_stop_latency (env : TaskEnv) (N s : Nat) (m : String)
    (hN : 2 ≤ N) (hs1 : 1 ≤ s) (hs2 : s < 1440)
    (ho : env.orderResult 1 = OrderResult.ok m)
    (hstop : env.stopTime = some s) :
    (runTask env N).status = TaskStatus.stopped ∧
    (runTask env N).time = s ∧
    (runTask env N).currentLoop = 1 := by
  obtain ⟨M, rfl⟩ : ∃ M, N = M + 1 := ⟨N - 1, by omega⟩
  have hstop0 : env.stopSet 0 = false := by
    rw [stopSet_some hstop]; simp; omega
  have hhw : (holdWait env 1 0 1440).1 = s :=
    holdWait_fst_stop hstop 1 1440 0 (by omega) (by omega)
  have hstops : env.stopSet s = true := by
    rw [stopSet_some hstop]; simp
  rw [runTask]
  simp only [runCycles, hstop0, ho, and_true, eq_self_iff_true, Nat.zero_add,
    hhw, hstops, if_true]
  rw [if_pos (by omega : 0 < M + 1)]
  unfold finishRun
  rw [if_neg (by omega : ¬ (M + 1 ≤ 1))]
  exact ⟨rfl, rfl, rfl⟩

/-- An environment where cycle 1's reserve succeeds and `stop()` is
called at time 5, during the hold window. -/
def stopDuringHoldEnv : TaskEnv := ⟨fun _ => .ok "ok", fun _ _ => .ok, some 5⟩

/-- Witness for the amended C3: stop at time 5 during the hold window
is observed at time 5. -/
theorem C3_witness : 2 ≤ 2 ∧ 1 ≤ 5 ∧ 5 < 1440 ∧
    ((runTask stopDuringHoldEnv 2).status = TaskStatus.stopped ∧
     (runTask stopDuringHoldEnv 2).time = 5 ∧
     (runTask stopDuringHoldEnv 2).currentLoop = 1) :=
  ⟨by decide, by decide, by decide,
    C3_amended_stop_latency stopDuringHoldEnv 2 5 "ok" (by decide) (by decide) (by decide)
      rfl rfl⟩

/-! ### The task registry (`task_manager`, routers/tasks.py) and the
periodic scheduler (`PeriodicTaskManager._execute_task`, scheduler.py) -/

/-- One `ReservationTask` as stored in the global `task_manager`:
the fields relevant to registry behaviour. -/
structure TaskRec where
  carNumber : String
  status : TaskStatus
  maxLoops : Nat
deriving DecidableEq

/-- The global `task_manager : Dict[str, List[ReservationTask]]`
(background.py line 123), as an association list keyed by user id. -/
abbrev Registry := List (String × List TaskRec)

/-- `task_manager[uid]` when present. -/
def lookupReg (reg : Registry) (uid : String) : Option (List TaskRec) :=
  (reg.find? (fun e => e.1 == uid)).map (fun e => e.2)

/-- `task_manager[uid] = tasks`: overwrite the binding for `uid`, or
add one at the end when absent (dict keys are unique). -/
def setReg : Registry → String → List TaskRec → Registry
  | [], uid, tasks => [(uid, tasks)]
  | e :: rest, uid, tasks =>
    if e.1 == uid then (uid, tasks) :: rest
    else e :: setReg rest uid tasks

/-- `task.car_number == car and task.status in ["pending", "running"]`
(tasks.py line 26, scheduler.py line 63). -/
def activeFor (car : String) (t : TaskRec) : Bool :=
  t.carNumber == car &&
    (t.status == TaskStatus.pending || t.status == TaskStatus.running)

/-- The `any(...)` over a user's task list. -/
def hasActiveFor (tasks : List TaskRec) (car : String) : Bool :=
  tasks.any (activeFor car)

/-- Number of pending/running tasks for one car in a user's list. -/
def countActiveFor (tasks : List TaskRec) (car : String) : Nat :=
  (tasks.filter (activeFor car)).length

/-- The uniqueness invariant: per user and car, at most one task in
the registry is pending/running. -/
def RegistryInv (reg : Registry) : Prop :=
  ∀ e ∈ reg, ∀ car, countActiveFor e.2 car ≤ 1

/-- Result of `create_reservation_task`: HTTP 400 conflict or the
success message. -/
inductive CreateResult where
  | conflict
  | created
deriving DecidableEq

/-- `create_reservation_task` (tasks.py lines 11-38): if the user
already has a pending/running task for the car, raise HTTP 400 and
leave the registry alone; else append one new pending task (the
router uses the constructor default cap of 10). -/
def create_reservation_task (reg : Registry) (uid car : String) : CreateResult × Registry :=
  let existing := (lookupReg reg uid).getD []
  if hasActiveFor existing car then (.conflict, reg)
  else (.created, setReg reg uid (existing ++ [⟨car, TaskStatus.pending, 10⟩]))

/-- A nearby-car entry as returned by `get_surrounding_cars`:
number and `carmodel_id` (as its raw integer value). -/
structure CarSum where
  number : String
  carmodelId : Nat
deriving DecidableEq

/-- The detail for one car as returned by `get_car_info`: its number
and the `electricity` string (`none` when the field is null). -/
structure CarDetail where
  number : String
  electricity : Option String
deriving DecidableEq

/-- `int(car_details.electricity.replace('%', ''))` (scheduler.py
line 69): strip every `%`, then parse as a decimal number; `none`
models the `ValueError` path. -/
def parseElectricity (s : String) : Option Nat :=
  let cleaned := s.toList.filter (fun c => c != '%')
  if cleaned.isEmpty || !(cleaned.all Char.isDigit) then none
  else some (cleaned.foldl (fun acc c => acc * 10 + (c.toNat - 48)) 0)

/-- Step 2 of `_execute_task` (scheduler.py lines 50-56): keep cars
whose `carmodel_id` matches the configured filter, when one is set. -/
def eligibleCars (filterModel : Option Nat) (cars : List CarSum) : List CarSum :=
  cars.filter (fun c =>
    match filterModel with
    | none => true
    | some m => c.carmodelId == m)

/-- The candidate walk of `_execute_task` (scheduler.py lines 59-75):
skip cars already under a pending/running task for this user, skip
cars whose detail fetch raises an `APIError` or whose electricity is
missing/empty/unparseable, and accept the first whose electricity
meets the threshold. -/
def findCar (tasks : List TaskRec) (minE : Nat)
    (detail : String → Except Unit CarDetail) :
    List CarSum → Option CarDetail
  | [] => none
  | c :: cs =>
    if hasActiveFor tasks c.number then findCar tasks minE detail cs
    else
      match detail c.number with
      | .error _ => findCar tasks minE detail cs
      | .ok d =>
        match d.electricity with
        | none => findCar tasks minE detail cs
        | some es =>
          if es == "" then findCar tasks minE detail cs
          else
            match parseElectricity es with
            | none => findCar tasks minE detail cs
            | some e => if minE ≤ e then some d else findCar tasks minE detail cs

/-- Steps 3-5 of `_execute_task` (scheduler.py lines 59-105), applied
to the already-shuffled eligible candidates: walk them, and on a
match append one new pending `ReservationTask` with the definition's
cap (default 10); record the `last_run_status` outcome string.
Returns (outcome, updated registry). -/
def executeTask (reg : Registry) (uid : String) (minE : Nat) (cap : Option Nat)
    (detail : String → Except Unit CarDetail) (shuffled : List CarSum) :
    String × Registry :=
  let tasks := (lookupReg reg uid).getD []
  match findCar tasks minE detail shuffled with
  | some d =>
      (s!"Success: Created task for car {d.number}",
       setReg reg uid (tasks ++ [⟨d.number, TaskStatus.pending, cap.getD 10⟩]))
  | none => ("Failed: No suitable car found", reg)

/-- `needle` occurs at the start of the character list. -/
def startsWithChars : List Char → List Char → Bool
  | [], _ => true
  | _ :: _, [] => false
  | a :: as, b :: bs => a == b && startsWithChars as bs

/-- `needle` occurs somewhere in the character list (Python `in`). -/
def containsChars (needle : List Char) : List Char → Bool
  | [] => startsWithChars needle []
  | b :: bs => startsWithChars needle (b :: bs) || containsChars needle bs

/-- Python's substring test `needle in hay`. -/
def strContains (hay needle : String) : Bool :=
  containsChars needle.toList hay.toList

/-! ### Lemmas about the registry and the candidate walk -/

theorem countActiveFor_zero {tasks : List TaskRec} {car : String}
    (h : hasActiveFor tasks car = false) : countActiveFor tasks car = 0 := by
  unfold countActiveFor
  rw [List.length_eq_zero]
  rw [hasActiveFor, List.any_eq_false] at h
  exact List.filter_eq_nil.mpr h

theorem countActiveFor_append (tasks : List TaskRec) (t : TaskRec) (car : String) :
    countActiveFor (tasks ++ [t]) car
      = countActiveFor tasks car + (if activeFor car t then 1 else 0) := by
  unfold countActiveFor
  rw [List.filter_append, List.length_append]
  by_cases h : activeFor car t = true
  · rw [if_pos h]; simp [h]
  · rw [if_neg h]
    have hf : activeFor car t = false := by simpa using h
    simp [hf]

theorem mem_setReg (reg : Registry) (uid : String) (l : List TaskRec) :
    ∀ e ∈ setReg reg uid l, e ∈ reg ∨ e = (uid, l) := by
  induction reg with
  | nil => intro e he; simp [setReg] at he; right; exact he
  | cons hd rest ih =>
    intro e he
    rw [setReg] at he
    by_cases hu : hd.1 == uid
    · rw [if_pos hu] at he
      rcases List.mem_cons.mp he with rfl | hmem
      · right; rfl
      · left; exact List.mem_cons_of_mem hd hmem
    · rw [if_neg hu] at he
      rcases List.mem_cons.mp he with rfl | hmem
      · left; exact List.mem_cons_self e rest
      · rcases ih e hmem with h1 | h1
        · left; exact List.mem_cons_of_mem hd h1
        · right; exact h1

theorem lookupReg_setReg_self (reg : Registry) (uid : String) (l : List TaskRec) :
    lookupReg (setReg reg uid l) uid = some l := by
  induction reg with
  | nil => simp [setReg, lookupReg, List.find?]
  | cons hd rest ih =>
    rw [setReg]
    by_cases hu : hd.1 == uid
    · rw [if_pos hu]
      simp [lookupReg, List.find?]
    · rw [if_neg hu]
      unfold lookupReg at ih ⊢
      rw [List.find?]
      simp only [hu]
      exact ih

theorem lookupReg_mem {reg : Registry} {uid : String} {l : List TaskRec}
    (h : lookupReg reg uid = some l) : ∃ u, (u, l) ∈ reg := by
  unfold lookupReg at h
  cases hf : reg.find? (fun e => e.1 == uid) with
  | none => rw [hf] at h; simp at h
  | some e =>
    rw [hf] at h
    simp at h
    exact ⟨e.1, by rw [← h]; exact List.mem_of_find?_eq_some hf⟩

/-- A car accepted by the candidate walk was not skipped, so it has no
pending/running task (assuming the detail endpoint reports the car it
was asked about). -/
theorem findCar_not_active {tasks : List TaskRec} {minE : Nat}
    {detail : String → Except Unit CarDetail}
    (hdet : ∀ n dd, detail n = Except.ok dd → dd.number = n) :
    ∀ cars d, findCar tasks minE detail cars = some d →
      hasActiveFor tasks d.number = false := by
  intro cars
  induction cars with
  | nil => intro d h; simp [findCar] at h
  | cons c cs ih =>
    intro d h
    rw [findCar] at h
    by_cases hact : hasActiveFor tasks c.number = true
    · rw [if_pos hact] at h
      exact ih d h
    · rw [if_neg hact] at h
      cases hd : detail c.number with
      | error u => rw [hd] at h; exact ih d h
      | ok dd =>
        rw [hd] at h
        simp only at h
        cases he : dd.electricity with
        | none => rw [he] at h; exact ih d h
        | some es =>
          rw [he] at h
          simp only at h
          by_cases hemp : (es == "") = true
          · rw [if_pos hemp] at h; exact ih d h
          · rw [if_neg hemp] at h
            cases hp : parseElectricity es with
            | none => rw [hp] at h; exact ih d h
            | some e =>
              rw [hp] at h
              simp only at h
              by_cases hge : minE ≤ e
              · rw [if_pos hge] at h
                obtain rfl : dd = d := by injection h
                rw [hdet c.number dd hd]
                simpa using hact
              · rw [if_neg hge] at h; exact ih d h

/-- When no candidate's detail meets the battery threshold, the walk
finds nothing. -/
theorem findCar_none {tasks : List TaskRec} {minE : Nat}
    {detail : String → Except Unit CarDetail} :
    ∀ cars, (∀ c ∈ cars, ∀ d, detail c.number = Except.ok d →
        ∀ es, d.electricity = some es → ∀ e, parseElectricity es = some e → e < minE) →
      findCar tasks minE detail cars = none := by
  intro cars
  induction cars with
  | nil => intro _; rfl
  | cons c cs ih =>
    intro hq
    have hrest := ih (fun c hc => hq c (List.mem_cons_of_mem _ hc))
    rw [findCar]
    by_cases hact : hasActiveFor tasks c.number = true
    · rw [if_pos hact]; exact hrest
    · rw [if_neg hact]
      cases hd : detail c.number with
      | error u => exact hrest
      | ok dd =>
        simp only
        cases he : dd.electricity with
        | none => exact hrest
        | some es =>
          simp only
          by_cases hemp : (es == "") = true
          · rw [if_pos hemp]; exact hrest
          · rw [if_neg hemp]
            cases hp : parseElectricity es with
            | none => exact hrest
            | some e =>
              simp only
              have hlt := hq c (List.mem_cons_self c cs) dd hd es he e hp
              rw [if_neg (by omega)]
              exact hrest

theorem countActiveFor_le_length (tasks : List TaskRec) (car : String) :
    countActiveFor tasks car ≤ tasks.length :=
  List.length_filter_le _ _

/-- Appending one fresh pending task for a car with no active task
preserves the at-most-one-active invariant. -/
theorem registryInv_append_new {reg : Registry} {uid car : String} {cap : Nat}
    (hinv : RegistryInv reg)
    (hact : hasActiveFor ((lookupReg reg uid).getD []) car = false) :
    RegistryInv (setReg reg uid
      (((lookupReg reg uid).getD []) ++ [⟨car, TaskStatus.pending, cap⟩])) := by
  intro e he c
  rcases mem_setReg reg uid _ e he with hmem | rfl
  · exact hinv e hmem c
  · show countActiveFor (((lookupReg reg uid).getD [])
      ++ [⟨car, TaskStatus.pending, cap⟩]) c ≤ 1
    rw [countActiveFor_append]
    by_cases hnew : activeFor c ⟨car, TaskStatus.pending, cap⟩ = true
    · rw [if_pos hnew]
      have hcar : car = c := by
        simpa [activeFor] using hnew
      subst hcar
      rw [countActiveFor_zero hact]
    · rw [if_neg hnew]
      cases hlk : lookupReg reg uid with
      | none => simp [countActiveFor]
      | some l =>
        obtain ⟨u, hm⟩ := lookupReg_mem hlk
        have h1 := hinv (u, l) hm c
        simpa using h1

theorem startsWithChars_append (l r : List Char) : startsWithChars l (l ++ r) = true := by
  induction l with
  | nil => rfl
  | cons c cs ih => simp [startsWithChars, ih]

theorem containsChars_self (n : List Char) : containsChars n n = true := by
  cases n with
  | nil => rfl
  | cons c cs =>
    have h := startsWithChars_append (c :: cs) []
    rw [List.append_nil] at h
    simp [containsChars, h]

theorem containsChars_append_left (n p h : List Char)
    (hh : containsChars n h = true) : containsChars n (p ++ h) = true := by
  induction p with
  | nil => simpa using hh
  | cons c cs ih => simp [containsChars, ih]

/-- A string contains any of its suffixes as a substring. -/
theorem strContains_append_self (pre suf : String) :
    strContains (pre ++ suf) suf = true := by
  unfold strContains
  have h : (pre ++ suf).toList = pre.toList ++ suf.toList := by simp
  rw [h]
  exact containsChars_append_left _ _ _ (containsChars_self suf.toList)

/-- The interpolated success outcome is a plain prefix + car number. -/
theorem successMsg_eq (n : String) :
    (s!"Success: Created task for car {n}" : String)
      = "Success: Created task for car " ++ n := by
  show "Success: Created task for car " ++ n ++ "" = "Success: Created task for car " ++ n
  simp

/-- C4: at most one pending/running loop per (account, vehicle):
`create_reservation_task` fails with a Conflict and leaves the
registry unchanged when an active task for the car already exists,
both `create_reservation_task` and `_execute_task` preserve the
at-most-one-active invariant, and the scheduler's candidate walk
never selects a car that is already under an active task. -/
theorem C4_at_most_one_active_loop (reg : Registry) (uid car : String) :
    (hasActiveFor ((lookupReg reg uid).getD []) car = true →
      create_reservation_task reg uid car = (CreateResult.conflict, reg)) ∧
    (RegistryInv reg → RegistryInv (create_reservation_task reg uid car).2) ∧
    (∀ minE (detail : String → Except Unit CarDetail) shuffled d,
      (∀ n dd, detail n = Except.ok dd → dd.number = n) →
      findCar ((lookupReg reg uid).getD []) minE detail shuffled = some d →
      hasActiveFor ((lookupReg reg uid).getD []) d.number = false) ∧
    (∀ minE (cap : Option Nat) (detail : String → Except Unit CarDetail) shuffled,
      (∀ n dd, detail n = Except.ok dd → dd.number = n) →
      RegistryInv reg →
      RegistryInv (executeTask reg uid minE cap detail shuffled).2) := by
  refine ⟨?_, ?_, ?_, ?_⟩
  · intro h
    unfold create_reservation_task
    rw [if_pos h]
  · intro hinv
    unfold create_reservation_task
    by_cases h : hasActiveFor ((lookupReg reg uid).getD []) car = true
    · rw [if_pos h]; exact hinv
    · rw [if_neg h]
      exact registryInv_append_new hinv (by simpa using h)
  · intro minE detail shuffled d hdet hfind
    exact findCar_not_active hdet shuffled d hfind
  · intro minE cap detail shuffled hdet hinv
    simp only [executeTask]
    cases hfind : findCar ((lookupReg reg uid).getD []) minE detail shuffled with
    | none => exact hinv
    | some d =>
      exact registryInv_append_new hinv (findCar_not_active hdet shuffled d hfind)

/-- C6: the scan either records "no suitable car" and creates no
loop, or creates exactly one pending task for the accepted car with
the definition's cap, recording an outcome that contains that car's
number. -/
theorem C6_execute_outcome (reg : Registry) (uid : String) (minE : Nat)
    (cap : Option Nat) (detail : String → Except Unit CarDetail)
    (shuffled : List CarSum) :
    ((∀ c ∈ shuffled, ∀ d, detail c.number = Except.ok d →
        ∀ es, d.electricity = some es → ∀ e, parseElectricity es = some e → e < minE) →
      executeTask reg uid minE cap detail shuffled
        = ("Failed: No suitable car found", reg)) ∧
    (∀ d, findCar ((lookupReg reg uid).getD []) minE detail shuffled = some d →
      (executeTask reg uid minE cap detail shuffled).1
        = "Success: Created task for car " ++ d.number ∧
      strContains (executeTask reg uid minE cap detail shuffled).1 d.number = true ∧
      lookupReg (executeTask reg uid minE cap detail shuffled).2 uid
        = some ((lookupReg reg uid).getD []
            ++ [⟨d.number, TaskStatus.pending, cap.getD 10⟩])) := by
  constructor
  · intro hq
    simp only [executeTask]
    rw [findCar_none shuffled hq]
  · intro d hfind
    simp only [executeTask]
    rw [hfind]
    refine ⟨successMsg_eq d.number, ?_, ?_⟩
    · show strContains (s!"Success: Created task for car {d.number}") d.number = true
      rw [successMsg_eq d.number]
      exact strContains_append_self _ _
    · exact lookupReg_setReg_self reg uid _

/-- A registry with one running task: user "u1" holds car "car1". -/
def regW : Registry := [("u1", [⟨"car1", TaskStatus.running, 10⟩])]

theorem regW_inv : RegistryInv regW := by
  intro e he c
  simp only [regW, List.mem_singleton] at he
  subst he
  exact le_trans (countActiveFor_le_length _ _) (by simp)

/-- A detail oracle reporting 80% battery for every car. -/
def detW : String → Except Unit CarDetail := fun n => Except.ok ⟨n, some "80%"⟩

theorem detW_number : ∀ n dd, detW n = Except.ok dd → dd.number = n := by
  intro n dd h
  unfold detW at h
  injection h with h
  rw [← h]

/-- A detail oracle reporting 30% battery for every car. -/
def detLowW : String → Except Unit CarDetail := fun n => Except.ok ⟨n, some "30%"⟩

theorem detLowW_below : ∀ c ∈ [(⟨"car2", 2⟩ : CarSum)], ∀ d,
    detLowW c.number = Except.ok d →
    ∀ es, d.electricity = some es → ∀ e, parseElectricity es = some e → e < 50 := by
  intro c _hc d hd es he e hp
  unfold detLowW at hd
  injection hd with hd
  subst hd
  simp only at he
  injection he with he
  subst he
  have h30 : parseElectricity "30%" = some 30 := by decide
  rw [h30] at hp
  injection hp with hp
  omega

/-- Witness for C4: in `regW`, creating a second loop for "car1"
conflicts and changes nothing; the invariant is preserved by both
create and execute; and the walk only returns the inactive "car2". -/
theorem C4_witness :
    hasActiveFor ((lookupReg regW "u1").getD []) "car1" = true ∧
    create_reservation_task regW "u1" "car1" = (CreateResult.conflict, regW) ∧
    RegistryInv (create_reservation_task regW "u1" "car1").2 ∧
    hasActiveFor ((lookupReg regW "u1").getD [])
      (CarDetail.number ⟨"car2", some "80%"⟩) = false ∧
    RegistryInv (executeTask regW "u1" 50 none detW [⟨"car2", 2⟩]).2 :=
  ⟨by decide,
   (C4_at_most_one_active_loop regW "u1" "car1").1 (by decide),
   (C4_at_most_one_active_loop regW "u1" "car1").2.1 regW_inv,
   (C4_at_most_one_active_loop regW "u1" "car1").2.2.1 50 detW [⟨"car2", 2⟩]
     ⟨"car2", some "80%"⟩ detW_number (by decide),
   (C4_at_most_one_active_loop regW "u1" "car1").2.2.2 50 none detW [⟨"car2", 2⟩]
     detW_number regW_inv⟩

/-- Witness for C6: with no candidate meeting the 50% threshold the
outcome is the no-suitable-car record and the registry is unchanged;
with an 80% candidate a single pending task is created and the
outcome contains the car number. -/
theorem C6_witness :
    executeTask regW "u1" 50 none detLowW [⟨"car2", 2⟩]
      = ("Failed: No suitable car found", regW) ∧
    ((executeTask regW "u1" 50 none detW [⟨"car2", 2⟩]).1
        = "Success: Created task for car " ++ (CarDetail.number ⟨"car2", some "80%"⟩) ∧
     strContains (executeTask regW "u1" 50 none detW [⟨"car2", 2⟩]).1
        (CarDetail.number ⟨"car2", some "80%"⟩) = true ∧
     lookupReg (executeTask regW "u1" 50 none detW [⟨"car2", 2⟩]).2 "u1"
        = some ((lookupReg regW "u1").getD []
            ++ [⟨CarDetail.number ⟨"car2", some "80%"⟩, TaskStatus.pending,
                 (none : Option Nat).getD 10⟩])) :=
  ⟨(C6_execute_outcome regW "u1" 50 none detLowW [⟨"car2", 2⟩]).1 detLowW_below,
   (C6_execute_outcome regW "u1" 50 none detW [⟨"car2", 2⟩]).2
     ⟨"car2", some "80%"⟩ (by decide)⟩

/-! ### The control-socket frame (`_create_packet`) -/

/-- One 32-bit unsigned integer as four big-endian bytes
(`struct.pack('>I', n)`). -/
def be32 (n : Nat) : List Nat :=
  [n / 2 ^ 24 % 256, n / 2 ^ 16 % 256, n / 2 ^ 8 % 256, n % 256]

/-- The per-connection state of `SevenMateSocketClient` relevant to
framing: `msg_id_counter`, initialized to 1. -/
structure SocketState where
  msgIdCounter : Nat
deriving DecidableEq

/-- `_create_packet` (seven_ma_sdk.py lines 172-180): a 12-byte header
`struct.pack('>III', msg_id_counter, action_id, len(packed_data))`
followed by the msgpack-serialized payload bytes; the message-id
counter is incremented afterwards. -/
def createPacket (st : SocketState) (actionId : Nat) (packedData : List Nat) :
    List Nat × SocketState :=
  (be32 st.msgIdCounter ++ be32 actionId ++ be32 packedData.length ++ packedData,
   ⟨st.msgIdCounter + 1⟩)

/-- Read one 32-bit big-endian unsigned integer from four bytes. -/
def readBe32 : List Nat → Nat
  | [a, b, c, d] => ((a * 256 + b) * 256 + c) * 256 + d
  | _ => 0

/-- Decode the three header integers of a frame. -/
def decodeHeader (frame : List Nat) : Option (Nat × Nat × Nat) :=
  if frame.length < 12 then none
  else some (readBe32 (frame.take 4),
             readBe32 ((frame.drop 4).take 4),
             readBe32 ((frame.drop 8).take 4))

theorem readBe32_be32 (n : Nat) (h : n < 2 ^ 32) : readBe32 (be32 n) = n := by
  simp only [readBe32, be32]
  omega

/-- C7: the frame is a 12-byte header of three 32-bit big-endian
unsigned integers — message id, action id, payload byte length —
followed by the serialized payload, and decoding the header of an
encoded frame recovers the same three integers; the message-id
counter is incremented by the call. -/
theorem C7_frame_roundtrip (m a : Nat) (p : List Nat)
    (hm : m < 2 ^ 32) (ha : a < 2 ^ 32) (hp : p.length < 2 ^ 32) :
    (createPacket ⟨m⟩ a p).1
      = (be32 m ++ be32 a ++ be32 p.length) ++ p ∧
    (be32 m ++ be32 a ++ be32 p.length).length = 12 ∧
    decodeHeader (createPacket ⟨m⟩ a p).1 = some (m, a, p.length) ∧
    (createPacket ⟨m⟩ a p).2.msgIdCounter = m + 1 := by
  refine ⟨by simp [createPacket], by simp [be32], ?_, rfl⟩
  show decodeHeader (be32 m ++ be32 a ++ be32 p.length ++ p) = some (m, a, p.length)
  have hlen : (be32 m ++ be32 a ++ be32 p.length ++ p).length = 12 + p.length := by
    simp [be32]
    omega
  unfold decodeHeader
  rw [if_neg (by omega : ¬ ((be32 m ++ be32 a ++ be32 p.length ++ p).length < 12))]
  simp only [be32, List.append_assoc, List.cons_append, List.nil_append]
  show some (readBe32 [m / 2 ^ 24 % 256, m / 2 ^ 16 % 256, m / 2 ^ 8 % 256, m % 256],
      readBe32 [a / 2 ^ 24 % 256, a / 2 ^ 16 % 256, a / 2 ^ 8 % 256, a % 256],
      readBe32 [p.length / 2 ^ 24 % 256, p.length / 2 ^ 16 % 256,
        p.length / 2 ^ 8 % 256, p.length % 256]) = some (m, a, p.length)
  have hm1 := readBe32_be32 m hm
  have ha1 := readBe32_be32 a ha
  have hp1 := readBe32_be32 p.length hp
  simp only [be32] at hm1 ha1 hp1
  rw [hm1, ha1, hp1]

/-- Witness for C7: message id 5, action 3002, empty payload decodes
back to (5, 3002, 0). -/
theorem C7_witness : 5 < 2 ^ 32 ∧ 3002 < 2 ^ 32 ∧ ([] : List Nat).length < 2 ^ 32 ∧
    ((createPacket ⟨5⟩ 3002 []).1
      = (be32 5 ++ be32 3002 ++ be32 ([] : List Nat).length) ++ [] ∧
     (be32 5 ++ be32 3002 ++ be32 ([] : List Nat).length).length = 12 ∧
     decodeHeader (createPacket ⟨5⟩ 3002 []).1 = some (5, 3002, ([] : List Nat).length) ∧
     (createPacket ⟨5⟩ 3002 []).2.msgIdCounter = 5 + 1) :=
  ⟨by decide, by decide, by decide,
   C7_frame_roundtrip 5 3002 [] (by decide) (by decide) (by decide)⟩

/-! ### Auth-code derivation (`_calculate_auth_code`) -/

/-- One hex digit (`bytes.fromhex`). -/
def hexVal (c : Char) : Option Nat :=
  if '0' ≤ c ∧ c ≤ '9' then some (c.toNat - 48)
  else if 'a' ≤ c ∧ c ≤ 'f' then some (c.toNat - 87)
  else if 'A' ≤ c ∧ c ≤ 'F' then some (c.toNat - 55)
  else none

/-- `bytes.fromhex`: pairs of hex digits to bytes; `none` on odd
length or a non-hex character (a `ValueError` in Python, caught by
`_calculate_auth_code`'s blanket handler). -/
def fromHex : List Char → Option (List Nat)
  | [] => some []
  | [_] => none
  | c1 :: c2 :: rest =>
    match hexVal c1, hexVal c2, fromHex rest with
    | some h1, some h2, some bs => some ((h1 * 16 + h2) :: bs)
    | _, _, _ => none

/-- The XOR fold of `_calculate_auth_code` (seven_ma_sdk.py lines
162-165): `auth_bytes[i] = key[i] ^ key[i+1]` for `i` in 0..14, then
`auth_bytes[15] = key[15] ^ auth_bytes[0]`. -/
def authBytes (key : List Nat) : List Nat :=
  let out0 := (List.range 15).map (fun i => (key.getD i 0) ^^^ (key.getD (i+1) 0))
  out0 ++ [(key.getD 15 0) ^^^ (out0.getD 0 0)]

/-- The standard base64 alphabet. -/
def b64Alphabet : List Char :=
  "ABCDEFGHIJKLMNOPQRSTUVWXYZabcdefghijklmnopqrstuvwxyz0123456789+/".toList

def b64Char (n : Nat) : Char := b64Alphabet.getD n 'A'

/-- `base64.b64encode` on a byte list. -/
def b64encode : List Nat → List Char
  | [] => []
  | [a] => [b64Char (a / 4), b64Char (a % 4 * 16), '=', '=']
  | [a, b] => [b64Char (a / 4), b64Char (a % 4 * 16 + b / 16), b64Char (b % 16 * 4), '=']
  | a :: b :: c :: rest =>
    b64Char (a / 4) :: b64Char (a % 4 * 16 + b / 16) ::
      b64Char (b % 16 * 4 + c / 64) :: b64Char (c % 64) :: b64encode rest

/-- `_calculate_auth_code` (seven_ma_sdk.py lines 155-170): hex-decode
the socket key, require exactly 16 bytes, XOR-fold, base64-encode.
`none` models the caught-exception path that returns `None`. -/
def calculate_auth_code (socketKey : String) : Option String :=
  match fromHex socketKey.toList with
  | none => none
  | some keyBytes =>
    if keyBytes.length ≠ 16 then none
    else some (String.mk (b64encode (authBytes keyBytes)))

/-- C8: auth-code derivation is a deterministic function of the
16-byte session key: output byte `i` is `key[i] XOR key[i+1]` for
`i` in 0..14, output byte 15 is `key[15] XOR output[0]`, and the
auth code is exactly the base64 encoding of those 16 bytes. -/
theorem C8_auth_code_derivation (key : List Nat) (h : key.length = 16) :
    (authBytes key).length = 16 ∧
    (∀ i, i < 15 → (authBytes key).getD i 0 = (key.getD i 0) ^^^ (key.getD (i+1) 0)) ∧
    (authBytes key).getD 15 0 = (key.getD 15 0) ^^^ ((authBytes key).getD 0 0) ∧
    (∀ sk, fromHex sk.toList = some key →
      calculate_auth_code sk = some (String.mk (b64encode (authBytes key)))) := by
  have hlen : ((List.range 15).map
      (fun i => (key.getD i 0) ^^^ (key.getD (i+1) 0))).length = 15 := by simp
  have hget : ∀ i, i < 15 → (authBytes key).getD i 0
      = (key.getD i 0) ^^^ (key.getD (i+1) 0) := by
    intro i hi
    unfold authBytes
    rw [List.getD_append _ _ _ _ (by omega)]
    rw [List.getD_eq_getElem _ _ (by omega)]
    simp
  refine ⟨by simp [authBytes], hget, ?_, ?_⟩
  · simp only [authBytes]
    rw [List.getD_append_right _ _ _ _ (by simp)]
    rw [List.getD_append _ _ _ _ (by simp)]
    rw [hlen]
    simp
  · intro sk hsk
    unfold calculate_auth_code
    rw [hsk]
    show (if key.length ≠ 16 then none
        else some (String.mk (b64encode (authBytes key))))
      = some (String.mk (b64encode (authBytes key)))
    rw [if_neg (by omega)]

/-- A concrete 16-byte key for the C8 witness. -/
def exKey : List Nat := [0, 1, 2, 3, 4, 5, 6, 7, 8, 9, 10, 11, 12, 13, 14, 15]

/-- Witness for C8 at the key bytes 00..0f. -/
theorem C8_witness : exKey.length = 16 ∧
    ((authBytes exKey).length = 16 ∧
     (∀ i, i < 15 → (authBytes exKey).getD i 0
        = (exKey.getD i 0) ^^^ (exKey.getD (i+1) 0)) ∧
     (authBytes exKey).getD 15 0 = (exKey.getD 15 0) ^^^ ((authBytes exKey).getD 0 0) ∧
     (∀ sk, fromHex sk.toList = some exKey →
       calculate_auth_code sk = some (String.mk (b64encode (authBytes exKey))))) :=
  ⟨by decide, C8_auth_code_derivation exKey (by decide)⟩

/-! ### `set_token` (SevenPaceAsyncClient) -/

/-- The SDK error raised by `set_token` on an unparseable token. -/
inductive SdkError where
  | authenticationError (msg : String)
deriving DecidableEq

/-- The unverified JWT claims; only `exp` is read (with default 0). -/
structure JwtPayload where
  exp : Option Nat
deriving DecidableEq

/-- The client state touched by `set_token`: the `authorization`
header entry and `expired_at`. -/
structure ClientState where
  authorization : Option String
  expired_at : String
deriving DecidableEq

/-- `SevenPaceAsyncClient.set_token` (seven_ma_sdk.py lines 274-286).
`decode` stands for
`jwt.decode(token, options={"verify_signature": False})` — it takes
no key and does no signature verification, and `Except.error e`
models a `jwt.exceptions.DecodeError` with text `e`.  `fmt` stands
for `datetime.fromtimestamp(...).strftime("%Y-%m-%d %H:%M:%S")`.
The result pairs the raised error (if any) with the client state
after the call; the `raise` happens before any assignment, so on the
error path the state is the input state. -/
def set_token (decode : String → Except String JwtPayload) (fmt : Nat → String)
    (st : ClientState) (token : String) (expired_at : Option String) :
    Option SdkError × ClientState :=
  match decode token with
  | .error e => (some (SdkError.authenticationError s!"无效的Token: {e}"), st)
  | .ok payload =>
    let st1 := { st with authorization := some ("Bearer " ++ token) }
    if expired_at = none ∨ expired_at = some "" then
      (none, { st1 with expired_at := fmt (payload.exp.getD 0) })
    else
      (none, { st1 with expired_at := expired_at.getD "" })

/-- C9: an unparseable token raises `AuthenticationError` and leaves
the authorization header and expiry unchanged; a parseable token sets
the header to `Bearer <token>` and reads the expiry from the
unverified `exp` claim (default 0) when no explicit expiry is
passed. -/
theorem C9_set_token (decode : String → Except String JwtPayload) (fmt : Nat → String)
    (st : ClientState) (token : String) :
    (∀ e, decode token = Except.error e →
      ∀ exp_arg, set_token decode fmt st token exp_arg
        = (some (SdkError.authenticationError s!"无效的Token: {e}"), st)) ∧
    (∀ p, decode token = Except.ok p →
      ∀ exp_arg, exp_arg = none ∨ exp_arg = some "" →
        set_token decode fmt st token exp_arg
          = (none, { authorization := some ("Bearer " ++ token),
                     expired_at := fmt (p.exp.getD 0) })) := by
  constructor
  · intro e he exp_arg
    unfold set_token
    rw [he]
  · intro p hp exp_arg hemp
    unfold set_token
    rw [hp]
    show (if exp_arg = none ∨ exp_arg = some "" then _ else _) = _
    rw [if_pos hemp]

/-- A decode oracle for the C9 witness: "good" parses with exp 1800000000,
anything else fails. -/
def decodeW : String → Except String JwtPayload := fun t =>
  if t = "good" then Except.ok ⟨some 1800000000⟩ else Except.error "Not enough segments"

/-- Witness for C9 on `decodeW`: the bad token errors and leaves the
state unchanged; the good token sets header and expiry. -/
theorem C9_witness :
    (set_token decodeW (fun n => toString n) ⟨none, ""⟩ "bad" none
      = (some (SdkError.authenticationError s!"无效的Token: Not enough segments"),
         ⟨none, ""⟩) ∧
     set_token decodeW (fun n => toString n) ⟨none, ""⟩ "good" none
      = (none, { authorization := some ("Bearer " ++ "good"),
                 expired_at := toString (1800000000 : Nat) })) :=
  ⟨(C9_set_token decodeW (fun n => toString n) ⟨none, ""⟩ "bad").1
     "Not enough segments" (by simp [decodeW]) none,
   (C9_set_token decodeW (fun n => toString n) ⟨none, ""⟩ "good").2
     ⟨some 1800000000⟩ (by simp [decodeW]) none (Or.inl rfl)⟩

/-! ### `check_authority` and `get_unpaid_order` -/

/-- The `unauthorized_code → message` table of `check_authority`
(seven_ma_sdk.py lines 368-372), with the `.get(..., "未知错误")`
default. -/
def authorityMessage : Nat → String
  | 1 => "未登录"
  | 2 => "未实名认证"
  | 3 => "实名认证中"
  | 4 => "实名认证失败"
  | 5 => "未充值或购买套餐卡"
  | 6 => "有进行中行程"
  | 7 => "有未支付订单"
  | 8 => "有待支付调度费"
  | 9 => "有待支付赔偿费"
  | _ => "未知错误"

/-- `check_authority` (seven_ma_sdk.py lines 364-377): code 0 means
authorized; any other code raises an `APIError` carrying the mapped
message. -/
def check_authority (unauthorizedCode : Nat) : Except String String :=
  if unauthorizedCode = 0 then Except.ok "有权限"
  else Except.error (authorityMessage unauthorizedCode)

/-- The profile fields `get_unpaid_order` reads (a 0 id is falsy in
Python, covering both 0 and a missing value). -/
structure ProfileInfo where
  recent_finished_cycling_order_id : Nat
  recent_finished_cycling_order_created_at : String
deriving DecidableEq

/-- The dict returned by `get_unpaid_order` on success. -/
structure OrderRef where
  order_id : Nat
  created_at : String
deriving DecidableEq

/-- `get_unpaid_order` (seven_ma_sdk.py lines 452-465): probe
`check_authority`; success means no unpaid order → `none`.  An
`APIError` whose text contains "有未支付订单" triggers a profile
fetch (`userInfo` is that call's outcome; its own `APIError` is not
caught and propagates) and yields the most recent finished order when
its id is truthy; any other probe error yields `none`. -/
def get_unpaid_order (unauthorizedCode : Nat)
    (userInfo : Except String ProfileInfo) : Except String (Option OrderRef) :=
  match check_authority unauthorizedCode with
  | .ok _ => .ok none
  | .error e =>
    if strContains e "有未支付订单" then
      match userInfo with
      | .error e2 => .error e2
      | .ok ui =>
        if ui.recent_finished_cycling_order_id ≠ 0 then
          .ok (some ⟨ui.recent_finished_cycling_order_id,
                     ui.recent_finished_cycling_order_created_at⟩)
        else .ok none
    else .ok none

theorem authorityMessage_default (n : Nat) : authorityMessage (n + 10) = "未知错误" := rfl

/-- Only code 7's message contains the unpaid-order marker. -/
theorem authorityMessage_no_unpaid {c : Nat} (h : c ≠ 7) :
    strContains (authorityMessage c) "有未支付订单" = false := by
  rcases c with _|_|_|_|_|_|_|_|_|_|n
  · decide
  · decide
  · decide
  · decide
  · decide
  · decide
  · decide
  · exact absurd rfl h
  · decide
  · decide
  · rw [authorityMessage_default]; decide

/-- C10: `get_unpaid_order` never propagates the permission probe's
own application error: the result is `ok none` whenever the probe
succeeds (code 0) or fails with any code other than 7 (the only code
whose message contains "有未支付订单"); on code 7 it returns the
profile's recent finished order exactly when its id is nonzero; and
an order is only ever returned for code 7. -/
theorem C10_unpaid_order_probe (code : Nat) (userInfo : Except String ProfileInfo) :
    (code ≠ 7 → get_unpaid_order code userInfo = Except.ok none) ∧
    (∀ ui, userInfo = Except.ok ui →
      get_unpaid_order 7 userInfo
        = Except.ok (if ui.recent_finished_cycling_order_id ≠ 0 then
            some ⟨ui.recent_finished_cycling_order_id,
                  ui.recent_finished_cycling_order_created_at⟩
          else none)) ∧
    (∀ o, get_unpaid_order code userInfo = Except.ok (some o) → code = 7) := by
  have h1 : code ≠ 7 → get_unpaid_order code userInfo = Except.ok none := by
    intro hc
    unfold get_unpaid_order check_authority
    by_cases h0 : code = 0
    · rw [if_pos h0]
    · rw [if_neg h0]
      show (if strContains (authorityMessage code) "有未支付订单" = true then _ else _) = _
      rw [authorityMessage_no_unpaid hc]
      simp
  refine ⟨h1, ?_, ?_⟩
  · intro ui hui
    unfold get_unpaid_order check_authority
    rw [if_neg (by omega : ¬ (7 = 0))]
    have h7 : strContains (authorityMessage 7) "有未支付订单" = true := by decide
    show (if strContains (authorityMessage 7) "有未支付订单" = true then _ else _) = _
    rw [if_pos h7, hui]
    show (if ui.recent_finished_cycling_order_id ≠ 0 then
        Except.ok (some (⟨ui.recent_finished_cycling_order_id,
          ui.recent_finished_cycling_order_created_at⟩ : OrderRef))
      else Except.ok none) = _
    by_cases hid : ui.recent_finished_cycling_order_id ≠ 0
    · rw [if_pos hid, if_pos hid]
    · rw [if_neg hid, if_neg hid]
  · intro o ho
    by_contra hc
    rw [h1 hc] at ho
    exact Option.noConfusion (Except.ok.inj ho)

/-- Witness for C10: code 5 (not recharged) yields no unpaid order;
code 7 with a profile carrying order id 999999 yields that order. -/
theorem C10_witness :
    (get_unpaid_order 5 (Except.ok ⟨999999, "2025-01-01 10:00:00"⟩)
      = Except.ok none) ∧
    get_unpaid_order 7 (Except.ok (⟨999999, "2025-01-01 10:00:00"⟩ : ProfileInfo))
      = Except.ok (if (999999 : Nat) ≠ 0 then
          some ⟨999999, "2025-01-01 10:00:00"⟩ else none) :=
  ⟨(C10_unpaid_order_probe 5 (Except.ok ⟨999999, "2025-01-01 10:00:00"⟩)).1
     (by decide),
   (C10_unpaid_order_probe 7 (Except.ok ⟨999999, "2025-01-01 10:00:00"⟩)).2.1
     ⟨999999, "2025-01-01 10:00:00"⟩ rfl⟩
